import Mathlib

/-!
Verification development for the Homara procedural point-cloud particle engine
(`buildpage/tree-version/tree-engine.js` and `buildpage/buildpage-engine.js`).

JavaScript numbers are modelled by `ℚ`.  `Math.random()` is modelled by an
explicit stream `f : ℕ → ℚ` together with a running index `k : ℕ`: each call
to the generator reads `f k` and advances the index, exactly in the source's
call order.  `Math.sqrt` (a float operation with no exact rational analogue)
is modelled by an abstract parameter `sqrtF : ℚ → ℚ`; concrete runs only query
it at arguments where its value is pinned down (for instance `sqrtF 0 = 0`).
-/

/-- A 3D seed position `{x, y, z}` as produced by the sampler and by the
structure extender (`positions` entries in both engines). -/
structure Pos3 where
  x : ℚ
  y : ℚ
  z : ℚ
deriving Repr, DecidableEq, Inhabited

/-- Stable insertion of `x` into `l`: `x` is placed before the first element
`y` with `lt x y`, hence after all earlier-inserted elements it ties with. -/
def insertSorted (lt : α → α → Bool) (x : α) : List α → List α
  | [] => [x]
  | y :: ys => if lt x y then x :: y :: ys else y :: insertSorted lt x ys

/-- Stable sort (models JavaScript `Array.prototype.sort`, which is stable):
elements are inserted left to right, each after the elements it ties with. -/
def sortList (lt : α → α → Bool) (l : List α) : List α :=
  l.foldl (fun acc x => insertSorted lt x acc) []

/-- `list.filter(() => Math.random() < threshold)`: one random draw per
element, consumed in list order. -/
def randFilter (f : ℕ → ℚ) (threshold : ℚ) : List α → ℕ → List α × ℕ
  | [], k => ([], k)
  | x :: xs, k =>
    let res := randFilter f threshold xs (k + 1)
    (if f k < threshold then x :: res.1 else res.1, res.2)

/-- Pixel inclusion test of both samplers (tree-engine.js line 515 and
buildpage-engine.js line 230): `alpha > 128 && brightness < 128` with
`brightness = (r + g + b) / 3`. -/
def includePixel (r g b alpha : ℕ) : Bool :=
  decide ((128 : ℚ) < (alpha : ℚ)) && decide (((r : ℚ) + g + b) / 3 < 128)

/-- Height-dependent depth attenuation of the tree sampler
(tree-engine.js lines 524-533). -/
def depthMultiplier (normalizedY : ℚ) : ℚ :=
  if 1/2 < normalizedY then 12/100
  else if 3/10 < normalizedY then 18/100
  else if 3/20 < normalizedY then 4/10
  else 1

/-- Depth coordinate of a tree-sampler seed (tree-engine.js lines 519-535):
`(Math.random() - 0.5) * CONFIG.tree.depthRange * depthMultiplier` with
`depthRange = 25` and `normalizedY = (posY + 512) / 1024`. -/
def treeSampleZ (rand posY : ℚ) : ℚ :=
  (rand - 1/2) * 25 * depthMultiplier ((posY + 512) / 1024)

/-- Depth coordinate of a logo-sampler seed (buildpage-engine.js line 233):
`(Math.random() - 0.5) * CONFIG.logo.depthRange` with `depthRange = 80`. -/
def logoSampleZ (rand : ℚ) : ℚ :=
  (rand - 1/2) * 80

/-- Pixel coordinates visited by the sampling loops
(`for (y = 0; y < size; y += stride) for (x = 0; x < size; x += stride)`,
row-major).  For `stride ≥ 1` these are exactly the multiples of `stride`
below `size` (the stride is `samplingDensity = 1` in both configurations). -/
def visitedCoords (size stride : ℕ) : List (ℕ × ℕ) :=
  ((List.range size).filter (fun v => v % stride = 0)).flatMap fun y =>
    ((List.range size).filter (fun v => v % stride = 0)).map fun x => (x, y)

/-- One RGBA pixel of the decoded raster. -/
structure Pixel where
  r : ℕ
  g : ℕ
  b : ℕ
  a : ℕ

/-- Body of the tree sampling loop (tree-engine.js lines 502-543): each
visited pixel passing `includePixel` emits one seed at centered, Y-flipped
planar coordinates, with a randomized depth; one random draw per emitted
seed. -/
def samplePixelsGo (img : ℕ → ℕ → Pixel) (size : ℕ) (f : ℕ → ℚ) :
    List (ℕ × ℕ) → List Pos3 → ℕ → List Pos3 × ℕ
  | [], acc, k => (acc, k)
  | c :: rest, acc, k =>
    let px := img c.1 c.2
    if includePixel px.r px.g px.b px.a then
      let posX : ℚ := (c.1 : ℚ) - (size : ℚ) / 2
      let posY : ℚ := -((c.2 : ℚ) - (size : ℚ) / 2)
      let posZ : ℚ := treeSampleZ (f k) posY
      samplePixelsGo img size f rest (acc ++ [⟨posX, posY, posZ⟩]) (k + 1)
    else
      samplePixelsGo img size f rest acc k

/-- The tree sampler (tree-engine.js lines 498-543). -/
def samplePixels (img : ℕ → ℕ → Pixel) (size stride : ℕ) (f : ℕ → ℚ) (k : ℕ) :
    List Pos3 × ℕ :=
  samplePixelsGo img size f (visitedCoords size stride) [] k

/-- Planar projection of a seed. -/
def planarXY (p : Pos3) : ℚ × ℚ := (p.x, p.y)

/-- Per-particle growth rank (tree-engine.js lines 623-637):
`normalizedY * 0.6 + normalizedDistance * 0.4` with
`normalizedY = (pos.y + 512) / 1024` and
`normalizedDistance = min(sqrt(pos.x² + pos.z²) / 512, 1)`. -/
def growthOrder (sqrtF : ℚ → ℚ) (pos : Pos3) : ℚ :=
  let normalizedY := (pos.y + 512) / 1024
  let distanceFromCenter := sqrtF (pos.x ^ 2 + pos.z ^ 2)
  let normalizedDistance := min (distanceFromCenter / 512) 1
  normalizedY * (6/10) + normalizedDistance * (4/10)

/-- Outward bias of a branch extension (tree-engine.js line 435):
`(particle.x - centerX) / Math.abs(particle.x - centerX || 1) * 0.3`.
JavaScript `||` replaces a zero difference by `1` before `Math.abs`. -/
def outwardBiasX (px centerX : ℚ) : ℚ :=
  (px - centerX) / |if px - centerX = 0 then 1 else px - centerX| * (3/10)

/-- `clamp(v, lo, hi)` as used in the claims' phrasing. -/
def clampQ (v lo hi : ℚ) : ℚ := max lo (min v hi)

/-! ### Root extension (tree-engine.js lines 240-345) -/

/-- Mutable state of the segment loop of `createRootBranch`
(tree-engine.js lines 294-323): running angles, running position, the shared
particle array and the random index. -/
structure RootSt where
  angleX : ℚ
  angleY : ℚ
  angleZ : ℚ
  curX : ℚ
  curY : ℚ
  curZ : ℚ
  arr : List Pos3
  k : ℕ
deriving Repr, DecidableEq

/-- Ring emission of `createRootBranch` (tree-engine.js lines 312-322):
`particlesInRing` particles spread around the current position, two random
draws each. -/
def ringLoop (f : ℕ → ℚ) (spreadRadius cx cy cz : ℚ) :
    ℕ → List Pos3 → ℕ → List Pos3 × ℕ
  | 0, arr, k => (arr, k)
  | m + 1, arr, k =>
    let p : Pos3 :=
      ⟨cx + (f k - 1/2) * spreadRadius, cy, cz + (f (k + 1) - 1/2) * spreadRadius⟩
    ringLoop f spreadRadius cx cy cz m (arr ++ [p]) (k + 2)

/-- Segment loop of `createRootBranch` (tree-engine.js lines 294-323):
`fuel` iterations remain, `i` is the current loop index (`progress = i /
segments`); each iteration perturbs the angles (three draws), advances the
position, and emits a ring of `max(1, floor(currentThickness * 4))`
particles with `currentThickness = thickness * (1 - progress * 0.5)`. -/
def segLoop (f : ℕ → ℚ) (thickness : ℚ) (segments : ℕ) :
    ℕ → ℕ → RootSt → RootSt
  | 0, _, st => st
  | fuel + 1, i, st =>
    let progress : ℚ := (i : ℚ) / (segments : ℚ)
    let angleX := st.angleX + (f st.k - 1/2) * (25/100)
    let angleY := st.angleY + (f (st.k + 1) - 1/2) * (15/100)
    let angleZ := st.angleZ + (f (st.k + 2) - 1/2) * (25/100)
    let curX := st.curX + angleX * (35/10)
    let curY := st.curY + angleY * 3
    let curZ := st.curZ + angleZ * (35/10)
    let currentThickness := thickness * (1 - progress * (5/10))
    let particlesInRing := max 1 (Int.floor (currentThickness * 4)).toNat
    let rl := ringLoop f (currentThickness * (15/10)) curX curY curZ
      particlesInRing st.arr (st.k + 3)
    segLoop f thickness segments fuel (i + 1)
      ⟨angleX, angleY, angleZ, curX, curY, curZ, rl.1, rl.2⟩

/-- Child-branch loop of `createRootBranch` (tree-engine.js lines 330-343):
each child gets a perturbed start position and bias (four draws) and the
recursive call (passed in as `crb`, one level deeper with
`thickness * 0.6`) extends the shared array. -/
def childLoop (crb : Pos3 -> List Pos3 -> ℚ -> ℚ -> ℚ -> ℕ -> List Pos3 × ℕ)
    (f : ℕ -> ℚ) :
    ℕ -> ℚ -> ℚ -> ℚ -> ℚ -> ℚ -> ℚ -> List Pos3 -> ℕ -> List Pos3 × ℕ
  | 0, _, _, _, _, _, _, arr, k => (arr, k)
  | m + 1, childThickness, angleX, angleZ, curX, curY, curZ, arr, k =>
    let branchStart : Pos3 :=
      ⟨curX + (f k - 1/2) * 15, curY, curZ + (f (k + 1) - 1/2) * 15⟩
    let newBiasX := angleX + (f (k + 2) - 1/2) * (1/2)
    let newBiasZ := angleZ + (f (k + 3) - 1/2) * (1/2)
    let res := crb branchStart arr childThickness newBiasX newBiasZ (k + 4)
    childLoop crb f m childThickness angleX angleZ curX curY curZ res.1 res.2

/-- `createRootBranch` (tree-engine.js lines 275-345), with the source's
`depth` argument encoded structurally as `b = 2 - depth` so that the
recursion (children run at `depth + 1`, i.e. `b - 1`) is primitive.  The
arm `b = 0` is the source's `depth >= 2` early return; `1 <= b'` (that is
`b = 2`) is the source's `depth < 1` branching condition.  Guard: return
unchanged when `thickness < 0.2` or the array already holds more than
100000 particles.  Otherwise draw a branch length in `[50, 120)`, set
outward/downward angles, run the segment loop, and (only at `depth < 1`)
branch into 2-3 thinner children with probability 0.35; the probability
draw happens only when `depth < 1` (short-circuit `&&`), and the length
cap 80000 is checked only after that draw. -/
def createRootBranchB (f : ℕ -> ℚ) :
    ℕ -> Pos3 -> List Pos3 -> ℚ -> ℚ -> ℚ -> ℕ -> List Pos3 × ℕ
  | 0, _, arr, _, _, _, k => (arr, k)
  | b + 1, startPos, arr, thickness, biasX, biasZ, k =>
    if thickness < 1/5 ∨ 100000 < arr.length then (arr, k)
    else
      let branchLength := 50 + f k * 70
      let segments := (Int.floor (branchLength / 4)).toNat
      let angleX := biasX * (12/10) + (f (k + 1) - 1/2) * (4/10)
      let angleY := -(6/10) - f (k + 2) * (3/10)
      let angleZ := biasZ * (12/10) + (f (k + 3) - 1/2) * (4/10)
      let st := segLoop f thickness segments segments 0
        ⟨angleX, angleY, angleZ, startPos.x, startPos.y, startPos.z, arr, k + 4⟩
      if 1 ≤ b then
        if f st.k < 7/20 ∧ st.arr.length < 80000 then
          let numBranches := if f (st.k + 1) < 7/10 then 2 else 3
          childLoop (fun sp a th bx bz kk => createRootBranchB f b sp a th bx bz kk)
            f numBranches (thickness * (6/10))
            st.angleX st.angleZ st.curX st.curY st.curZ st.arr (st.k + 2)
        else (st.arr, st.k + 1)
      else (st.arr, st.k)

/-- `createRootBranch` with the source's signature: `depth` is translated
to the structural budget `2 - depth`. -/
def createRootBranch (f : ℕ -> ℚ) (startPos : Pos3) (arr : List Pos3)
    (depth : ℕ) (thickness biasX biasZ : ℚ) (k : ℕ) : List Pos3 × ℕ :=
  createRootBranchB f (2 - depth) startPos arr thickness biasX biasZ k

/-- Per-start loop of `extendRoots` (tree-engine.js lines 262-269): outward
direction from the root-base centroid (`Math.sqrt(...) || 1` guard), then a
depth-0, thickness-1 call of `createRootBranch`. -/
def startsLoop (sqrtF : ℚ → ℚ) (f : ℕ → ℚ) (centerX centerZ : ℚ) :
    List Pos3 → List Pos3 → ℕ → List Pos3 × ℕ
  | [], arr, k => (arr, k)
  | s :: rest, arr, k =>
    let ox := s.x - centerX
    let oz := s.z - centerZ
    let m := sqrtF (ox ^ 2 + oz ^ 2)
    let outwardMag := if m = 0 then 1 else m
    let res := createRootBranch f s arr 0 1 (ox / outwardMag) (oz / outwardMag) k
    startsLoop sqrtF f centerX centerZ rest res.1 res.2

/-- `extendRoots` (tree-engine.js lines 242-272): bottom 15% of seeds by
height, their horizontal centroid, a random 20% selection of starts capped at
50, and one root branch per start.  An empty input makes the JavaScript
throw, which the caller catches and treats as zero extension particles
(tree-engine.js lines 554-561); the model returns the empty extension
directly in that case. -/
def extendRoots (sqrtF : ℚ → ℚ) (f : ℕ → ℚ) (positions : List Pos3) (k : ℕ) :
    List Pos3 × ℕ :=
  if positions.isEmpty then ([], k)
  else
    let sortedByY := sortList (fun a b => decide (a.y < b.y)) positions
    let bottomThreshold := (sortedByY.getD (positions.length * 15 / 100) default).y
    let rootBaseParticles := positions.filter fun p => decide (p.y ≤ bottomThreshold)
    let centerX := ((rootBaseParticles.map (·.x)).sum) / (rootBaseParticles.length : ℚ)
    let centerZ := ((rootBaseParticles.map (·.z)).sum) / (rootBaseParticles.length : ℚ)
    let rs := randFilter f (2/10) rootBaseParticles k
    let limitedRootStarts := rs.1.take 50
    startsLoop sqrtF f centerX centerZ limitedRootStarts [] rs.2

/-! ### Branch extension (tree-engine.js lines 347-473) -/

/-- Extension walk of one sampled branch tip (tree-engine.js lines 438-469):
`fuel` iterations remain, `i` is the source loop counter (`i = 1` first,
`progress = i / segs`).  Each iteration draws three curve perturbations,
advances the position along the blended direction (segment length 3, slight
droop `-0.1`), and with probability `(1 - progress)² * 0.4` emits a single
particle with an ever-tighter spread (three more draws). -/
def branchSegLoop (f : ℕ → ℚ) (dirX dirY dirZ obX obZ : ℚ) (segs : ℕ) :
    ℕ → ℕ → ℚ → ℚ → ℚ → List Pos3 → ℕ → List Pos3 × ℕ
  | 0, _, _, _, _, acc, k => (acc, k)
  | fuel + 1, i, cx, cy, cz, acc, k =>
    let progress : ℚ := (i : ℚ) / (segs : ℚ)
    let curveX := (f k - 1/2) * (4/10)
    let curveY := (f (k + 1) - 1/2) * (3/10)
    let curveZ := (f (k + 2) - 1/2) * (4/10)
    let cx := cx + (dirX + obX) * 3 + curveX
    let cy := cy + (dirY - 1/10) * 3 + curveY
    let cz := cz + (dirZ + obZ) * 3 + curveZ
    let density := (1 - progress) ^ 2 * (4/10)
    if f (k + 3) < density then
      let spread := (1 - progress) * (1/2)
      let p : Pos3 :=
        ⟨cx + (f (k + 4) - 1/2) * spread, cy + (f (k + 5) - 1/2) * spread,
         cz + (f (k + 6) - 1/2) * spread * (3/10)⟩
      branchSegLoop f dirX dirY dirZ obX obZ segs fuel (i + 1) cx cy cz
        (acc ++ [p]) (k + 7)
    else
      branchSegLoop f dirX dirY dirZ obX obZ segs fuel (i + 1) cx cy cz acc (k + 4)

/-- Per-tip loop of `extendBranches` (tree-engine.js lines 424-470): a random
extension length in `[30, 60)`, the outward bias (`outwardBiasX` plus one
draw for the z bias), then the extension walk starting at the tip. -/
def tipsLoop (f : ℕ → ℚ) (centerX : ℚ) :
    List (Pos3 × ℚ × ℚ × ℚ) → List Pos3 → ℕ → List Pos3 × ℕ
  | [], acc, k => (acc, k)
  | t :: rest, acc, k =>
    let p := t.1
    let extensionLength := 30 + f k * 30
    let extensionSegments := (Int.floor (extensionLength / 3)).toNat
    let obX := outwardBiasX p.x centerX
    let obZ := (f (k + 1) - 1/2) * (2/10)
    let res := branchSegLoop f t.2.1 t.2.2.1 t.2.2.2 obX obZ
      extensionSegments extensionSegments 1 p.x p.y p.z acc (k + 2)
    tipsLoop f centerX rest res.1 res.2

set_option maxHeartbeats 1000000 in
/-- `extendBranches` (tree-engine.js lines 349-473): centroid of the seed
set, the 30-80% height band, the outer 25% of that band by planar distance
from the centroid (stable descending sort, `Math.floor(len * 0.25)` kept),
a local outward direction averaged from neighbours within 15 units
(tips with no neighbour or a zero-magnitude direction are discarded), a
random 20% sample, and one extension walk per sampled tip.  As with
`extendRoots`, an empty input throws in the source and is caught by the
caller (zero extension particles). -/
def extendBranches (sqrtF : ℚ → ℚ) (f : ℕ → ℚ) (positions : List Pos3) (k : ℕ) :
    List Pos3 × ℕ :=
  if positions.isEmpty then ([], k)
  else
    let centerX := ((positions.map (·.x)).sum) / (positions.length : ℚ)
    let centerY := ((positions.map (·.y)).sum) / (positions.length : ℚ)
    let sortedByY := sortList (fun a b => decide (a.y < b.y)) positions
    let minY := (sortedByY.getD 0 default).y
    let maxY := (sortedByY.getD (sortedByY.length - 1) default).y
    let treeHeight := maxY - minY
    let middleStart := minY + treeHeight * (3/10)
    let middleEnd := minY + treeHeight * (8/10)
    let middleParticles := positions.filter fun p =>
      decide (middleStart ≤ p.y) && decide (p.y ≤ middleEnd)
    let particlesWithDistance := middleParticles.map fun p =>
      (p, sqrtF ((p.x - centerX) ^ 2 + (p.y - centerY) ^ 2))
    let sortedByDist := sortList (fun a b => decide (b.2 < a.2)) particlesWithDistance
    let outerParticles := sortedByDist.take (middleParticles.length * 25 / 100)
    let branchTips := outerParticles.filterMap fun pd =>
      let p := pd.1
      let nearby := middleParticles.filter fun q =>
        let dist := sqrtF ((q.x - p.x) ^ 2 + (q.y - p.y) ^ 2 + (q.z - p.z) ^ 2)
        decide (0 < dist) && decide (dist < 15)
      if nearby.isEmpty then none
      else
        let n : ℚ := (nearby.length : ℚ)
        let avgDx := ((nearby.map fun q => p.x - q.x).sum) / n
        let avgDy := ((nearby.map fun q => p.y - q.y).sum) / n
        let avgDz := ((nearby.map fun q => p.z - q.z).sum) / n
        let magnitude := sqrtF (avgDx ^ 2 + avgDy ^ 2 + avgDz ^ 2)
        if magnitude = 0 then none
        else some (p, avgDx / magnitude, avgDy / magnitude, avgDz / magnitude)
    let st := randFilter f (2/10) branchTips k
    tipsLoop f centerX st.1 [] st.2

/-! ### Particle store and growth state machine (tree-engine.js) -/

/-- An animated tree particle (tree-engine.js lines 639-658). -/
structure Particle where
  originalX : ℚ
  originalY : ℚ
  originalZ : ℚ
  isSaplingParticle : Bool
  growthOrder : ℚ
  currentOpacity : ℚ
  targetOpacity : ℚ
  phaseY : ℚ
  phaseX : ℚ
  speedMultiplier : ℚ
  windOffsetX : ℚ
  windOffsetY : ℚ
  flowOffset : ℚ
  driftX : ℚ
  driftZ : ℚ
deriving Repr, DecidableEq

/-- Module-level growth flags of the tree engine (tree-engine.js lines
53-55): `isGrown`, `saplingAnimationEnabled`, `flowAnimationEnabled`. -/
structure GrowthState where
  isGrown : Bool
  saplingAnimationEnabled : Bool
  flowAnimationEnabled : Bool
deriving Repr, DecidableEq

/-- The flags at page load (tree-engine.js lines 53-55). -/
def initialGrowthState : GrowthState :=
  { isGrown := false, saplingAnimationEnabled := true, flowAnimationEnabled := false }

/-- `growTree` (tree-engine.js lines 722-731): a no-op when `isGrown` is
already set; otherwise flip the three flags and start the growth timer.
The boolean result records whether a new `animateGrowth` timer was
started. -/
def growTree (s : GrowthState) : GrowthState × Bool :=
  if s.isGrown then (s, false)
  else ({ isGrown := true, saplingAnimationEnabled := false,
          flowAnimationEnabled := true }, true)

/-- `n` invocations of the growth trigger starting from page load, counting
how many growth timers were started in total. -/
def growTreeIter : ℕ → GrowthState × ℕ
  | 0 => (initialGrowthState, 0)
  | n + 1 =>
    let prev := growTreeIter n
    let step := growTree prev.1
    (step.1, prev.2 + if step.2 then 1 else 0)

/-- One `animateGrowth` frame (tree-engine.js lines 733-785):
`progress = min(elapsed / duration, 1)`; sapling particles keep opacity 1,
the rest fade in by `growthOrder` against the wave
`progress * (1 + 0.25)`; when `progress` has reached 1 every particle is
forced to opacity 1.  Returns the updated particles, the opacity buffer
written this frame, and whether another frame was requested
(`requestAnimationFrame(animateGrowth)` runs only while `progress < 1`). -/
def animateGrowthFrame (elapsed duration : ℚ) (particles : List Particle) :
    List Particle × List ℚ × Bool :=
  let progress := min (elapsed / duration) 1
  let step := particles.map fun p =>
    if p.isSaplingParticle then { p with currentOpacity := 1 }
    else
      let fadeRange : ℚ := 25/100
      let growthWave := progress * (1 + fadeRange)
      let distanceFromWave := growthWave - p.growthOrder
      let o : ℚ :=
        if distanceFromWave < 0 then 0
        else if distanceFromWave < fadeRange then distanceFromWave / fadeRange
        else 1
      { p with currentOpacity := o }
  if progress < 1 then (step, step.map (·.currentOpacity), true)
  else
    let final := step.map fun p => { p with currentOpacity := 1 }
    (final, final.map (·.currentOpacity), false)

/-- The opacity the claim's wording assigns to a particle during the
`GROWING` phase (spec section 4.3): 1 for sapling particles, otherwise the
piecewise function of `d = progress * (1 + 0.25) - growthOrder`. -/
def claimedGrowthOpacity (progress order : ℚ) (isSapling : Bool) : ℚ :=
  if isSapling then 1
  else
    let d := progress * (1 + 25/100) - order
    if d < 0 then 0 else if d < 25/100 then d / (25/100) else 1

/-! ### Kinematic updaters -/

/-- One particle of `updateFullTreeFlow` (tree-engine.js lines 914-964):
upward flow with respawn (two draws on respawn), the slash/wind force from
the pointer (`slashWidth = 60`, `slashStrength = 20`,
`slashSmoothness = 0.15`, `windReturnSpeed = 0.12`), and the displayed
position written to the buffer.  Constants are `CONFIG.tree`
(`flowSpeed = 0.12`, `flowHeight = 8`, `flowTurbulence = 0.04`).  Returns
the updated particle, the written position, and the advanced random
index. -/
def updateFullTreeFlowParticle (sqrtF : ℚ → ℚ) (f : ℕ → ℚ)
    (mouseWorldX mouseWorldY velX velY : ℚ) (p : Particle) (k : ℕ) :
    Particle × (ℚ × ℚ × ℚ) × ℕ :=
  let flow1 := p.flowOffset + 12/100
  let fd : ℚ × ℚ × ℚ × ℕ :=
    if 8 ≤ flow1 then
      ((0 : ℚ), (f k - 1/2) * (4/100), (f (k + 1) - 1/2) * (4/100), k + 2)
    else (flow1, p.driftX, p.driftZ, k)
  let flowOffset := fd.1
  let driftX := fd.2.1
  let driftZ := fd.2.2.1
  let k1 := fd.2.2.2
  let dx := p.originalX - mouseWorldX
  let dy := p.originalY - mouseWorldY
  let distanceToMouse := sqrtF (dx ^ 2 + dy ^ 2)
  let w : ℚ × ℚ :=
    if distanceToMouse < 60 then
      let velocityMag := sqrtF (velX ^ 2 + velY ^ 2)
      if 1/2 < velocityMag then
        let slashDirX := velX / velocityMag
        let slashDirY := velY / velocityMag
        let pushStrength := (1 - distanceToMouse / 60) * 20
        (p.windOffsetX + (slashDirX * pushStrength - p.windOffsetX) * (15/100),
         p.windOffsetY + (slashDirY * pushStrength - p.windOffsetY) * (15/100))
      else
        (p.windOffsetX + (0 - p.windOffsetX) * (12/100),
         p.windOffsetY + (0 - p.windOffsetY) * (12/100))
    else
      (p.windOffsetX + (0 - p.windOffsetX) * (12/100),
       p.windOffsetY + (0 - p.windOffsetY) * (12/100))
  let p' := { p with flowOffset := flowOffset, driftX := driftX, driftZ := driftZ,
                     windOffsetX := w.1, windOffsetY := w.2 }
  (p', (p'.originalX + p'.driftX + p'.windOffsetX,
        p'.originalY + p'.flowOffset + p'.windOffsetY,
        p'.originalZ + p'.driftZ), k1)

/-- One particle of `updateSaplingAnimation` (tree-engine.js lines 826-879):
the body is identical to the full-flow body but runs only for sapling
particles; non-sapling particles are left untouched and their buffer entry
is not written (`none`). -/
def updateSaplingParticle (sqrtF : ℚ → ℚ) (f : ℕ → ℚ)
    (mouseWorldX mouseWorldY velX velY : ℚ) (p : Particle) (k : ℕ) :
    Particle × Option (ℚ × ℚ × ℚ) × ℕ :=
  if p.isSaplingParticle then
    let r := updateFullTreeFlowParticle sqrtF f mouseWorldX mouseWorldY velX velY p k
    (r.1, some r.2.1, r.2.2)
  else (p, none, k)

/-- A logo particle (buildpage-engine.js lines 248-257). -/
structure LogoParticle where
  originalX : ℚ
  originalY : ℚ
  originalZ : ℚ
  phaseY : ℚ
  phaseX : ℚ
  speedMultiplier : ℚ
  windOffsetX : ℚ
  windOffsetY : ℚ
deriving Repr, DecidableEq

/-- One particle of the logo variant's `updateParticlePositions`
(buildpage-engine.js lines 300-336): periodic float/sway terms
(`floatAmount = 5`, `swayAmount = 4`) from `time = animationTime *
speedMultiplier`, a radial pointer push within `mouseWindRadius = 80`
(`mouseWindStrength = 25`, blend `0.15`, `windReturnSpeed = 0.08`), and the
displayed position; `z` keeps its original value.  `Math.sin`, `Math.cos`
and `Math.atan2` are abstract (`sinF`, `cosF`, `atan2F`), like `sqrtF`. -/
def updateLogoParticle (sqrtF sinF cosF : ℚ → ℚ) (atan2F : ℚ → ℚ → ℚ)
    (animationTime mouseWorldX mouseWorldY : ℚ) (p : LogoParticle) :
    LogoParticle × (ℚ × ℚ × ℚ) :=
  let time := animationTime * p.speedMultiplier
  let floatOffsetY := sinF (time + p.phaseY) * 5
  let swayOffsetX := cosF (time * (7/10) + p.phaseX) * 4
  let dx := p.originalX - mouseWorldX
  let dy := p.originalY - mouseWorldY
  let distanceToMouse := sqrtF (dx ^ 2 + dy ^ 2)
  let w : ℚ × ℚ :=
    if distanceToMouse < 80 then
      let pushStrength := (1 - distanceToMouse / 80) * 25
      let angle := atan2F dy dx
      let pushX := cosF angle * pushStrength
      let pushY := sinF angle * pushStrength
      (p.windOffsetX + (pushX - p.windOffsetX) * (15/100),
       p.windOffsetY + (pushY - p.windOffsetY) * (15/100))
    else
      (p.windOffsetX + (0 - p.windOffsetX) * (8/100),
       p.windOffsetY + (0 - p.windOffsetY) * (8/100))
  let p' := { p with windOffsetX := w.1, windOffsetY := w.2 }
  (p', (p'.originalX + swayOffsetX + p'.windOffsetX,
        p'.originalY + floatOffsetY + p'.windOffsetY,
        p'.originalZ))

/-- Claim C3's reading of the full-flow update: the written y coordinate
decomposes as baseline plus a periodic float term - a sine of elapsed time
scaled by the particle's `speedMultiplier` and `phaseY`, with some fixed
nonzero amplitude - plus the flow offset plus the force offset. -/
def fullFlowHasPeriodicFloat : Prop :=
  ∃ A : ℝ, A ≠ 0 ∧
    ∀ (t : ℝ) (sqrtF : ℚ → ℚ) (f : ℕ → ℚ) (mx my vx vy : ℚ) (p : Particle) (k : ℕ),
      ((updateFullTreeFlowParticle sqrtF f mx my vx vy p k).2.1.2.1 : ℝ) =
        (p.originalY : ℝ) +
          Real.sin (t * (p.speedMultiplier : ℝ) + (p.phaseY : ℝ)) * A +
          ((updateFullTreeFlowParticle sqrtF f mx my vx vy p k).1.flowOffset : ℝ) +
          ((updateFullTreeFlowParticle sqrtF f mx my vx vy p k).1.windOffsetY : ℝ)

/-! ### Helper lemmas -/

/-- The planar projection and acceptance set of the sampling loop body:
independent of the random stream and its index. -/
theorem samplePixelsGo_planar (img : ℕ → ℕ → Pixel) (size : ℕ) (f : ℕ → ℚ) :
    ∀ (coords : List (ℕ × ℕ)) (acc : List Pos3) (k : ℕ),
      (samplePixelsGo img size f coords acc k).1.map planarXY =
        acc.map planarXY ++
          ((coords.filter fun c => includePixel (img c.1 c.2).r (img c.1 c.2).g
              (img c.1 c.2).b (img c.1 c.2).a).map
            fun c => ((c.1 : ℚ) - (size : ℚ) / 2, -((c.2 : ℚ) - (size : ℚ) / 2)))
  | [], acc, k => by simp [samplePixelsGo]
  | c :: rest, acc, k => by
    by_cases h : includePixel (img c.1 c.2).r (img c.1 c.2).g (img c.1 c.2).b
        (img c.1 c.2).a
    · rw [samplePixelsGo, if_pos h, samplePixelsGo_planar img size f rest _ (k + 1),
        List.filter_cons_of_pos (by simpa using h)]
      simp [planarXY]
    · rw [samplePixelsGo, if_neg h, samplePixelsGo_planar img size f rest acc k,
        List.filter_cons_of_neg (by simpa using h)]

/-- Every output of the sampling loop body is an input accumulator entry or
has the planar coordinates of a visited pixel. -/
theorem samplePixelsGo_mem (img : ℕ → ℕ → Pixel) (size : ℕ) (f : ℕ → ℚ) :
    ∀ (coords : List (ℕ × ℕ)) (acc : List Pos3) (k : ℕ) (p : Pos3),
      p ∈ (samplePixelsGo img size f coords acc k).1 →
      p ∈ acc ∨ ∃ c ∈ coords, p.y = -((c.2 : ℚ) - (size : ℚ) / 2)
  | [], acc, k, p => by simp [samplePixelsGo]
  | c :: rest, acc, k, p => by
    by_cases h : includePixel (img c.1 c.2).r (img c.1 c.2).g (img c.1 c.2).b
        (img c.1 c.2).a
    · rw [samplePixelsGo, if_pos h]
      intro hp
      rcases samplePixelsGo_mem img size f rest _ (k + 1) p hp with hacc | ⟨c', hc', hy⟩
      · rcases List.mem_append.1 hacc with hacc | hnew
        · exact Or.inl hacc
        · refine Or.inr ⟨c, List.mem_cons_self .., ?_⟩
          simp only [List.mem_singleton] at hnew
          subst hnew
          rfl
      · exact Or.inr ⟨c', List.mem_cons_of_mem _ hc', hy⟩
    · rw [samplePixelsGo, if_neg h]
      intro hp
      rcases samplePixelsGo_mem img size f rest acc k p hp with hacc | ⟨c', hc', hy⟩
      · exact Or.inl hacc
      · exact Or.inr ⟨c', List.mem_cons_of_mem _ hc', hy⟩

/-- Visited pixel coordinates lie below `size` in both axes. -/
theorem visitedCoords_mem {size stride : ℕ} {c : ℕ × ℕ}
    (h : c ∈ visitedCoords size stride) : c.1 < size ∧ c.2 < size := by
  simp only [visitedCoords, List.mem_flatMap, List.mem_filter, List.mem_map,
    List.mem_range] at h
  obtain ⟨y, ⟨hy, _⟩, x, ⟨hx, _⟩, rfl⟩ := h
  exact ⟨hx, hy⟩

/-! ### Claims -/

/-- C10: the outward-bias computation of branch extension never divides by
zero: the denominator `Math.abs(particle.x - centerX || 1)` is nonzero, and
`outwardBiasX` is `+0.3` for a tip right of the centroid, `-0.3` left of it,
and exactly `0` on the axis (the `|| 1` fallback maps the on-axis case to
`0/1 = 0`, not to a random direction). -/
theorem outwardBiasX_cases (px cx : ℚ) :
    |if px - cx = 0 then 1 else px - cx| ≠ 0 ∧
    (cx < px → outwardBiasX px cx = 3/10) ∧
    (px < cx → outwardBiasX px cx = -(3/10)) ∧
    (px = cx → outwardBiasX px cx = 0) := by
  refine ⟨?_, ?_, ?_, ?_⟩
  · split
    · norm_num
    · next h => simpa using h
  · intro h
    have hd : (0 : ℚ) < px - cx := by linarith
    rw [outwardBiasX, if_neg (ne_of_gt hd), abs_of_pos hd,
      div_self (ne_of_gt hd)]
    norm_num
  · intro h
    have hd : px - cx < 0 := by linarith
    rw [outwardBiasX, if_neg (ne_of_lt hd), abs_of_neg hd, div_neg,
      div_self (ne_of_lt hd)]
    norm_num
  · intro h
    rw [outwardBiasX, if_pos (by rw [h, sub_self]), h, sub_self]
    norm_num

/-- Witness for C10 at concrete inputs. -/
theorem outwardBiasX_cases_witness :
    outwardBiasX 5 3 = 3/10 ∧ outwardBiasX 3 5 = -(3/10) ∧
      outwardBiasX 4 4 = 0 :=
  ⟨(outwardBiasX_cases 5 3).2.1 (by norm_num),
   (outwardBiasX_cases 3 5).2.2.1 (by norm_num),
   (outwardBiasX_cases 4 4).2.2.2 rfl⟩

/-- C5: a pixel with `alpha ≤ 128` or brightness `(r+g+b)/3 ≥ 128` never
passes the samplers' seed test, a pixel with `alpha = 255` and brightness
`0` always does, and the sampler emits exactly one seed per visited pixel
passing the test. -/
theorem includePixel_threshold (r g b a : ℕ) (img : ℕ → ℕ → Pixel)
    (size stride : ℕ) (f : ℕ → ℚ) (k : ℕ) :
    ((a ≤ 128 ∨ (128 : ℚ) ≤ ((r : ℚ) + g + b) / 3) → includePixel r g b a = false) ∧
    ((a = 255 ∧ r + g + b = 0) → includePixel r g b a = true) ∧
    (samplePixels img size stride f k).1.length =
      ((visitedCoords size stride).filter fun c =>
        includePixel (img c.1 c.2).r (img c.1 c.2).g (img c.1 c.2).b
          (img c.1 c.2).a).length := by
  refine ⟨?_, ?_, ?_⟩
  · rintro (h | h)
    · simp only [includePixel, Bool.and_eq_false_imp, decide_eq_true_eq,
        decide_eq_false_iff_not, not_lt]
      intro hc
      exact absurd (by exact_mod_cast hc) (by omega)
    · simp only [includePixel, Bool.and_eq_false_iff, decide_eq_false_iff_not, not_lt]
      exact Or.inr h
  · rintro ⟨ha, hrgb⟩
    have h1 : r = 0 ∧ g = 0 ∧ b = 0 := by omega
    simp [includePixel, ha, h1.1, h1.2.1, h1.2.2]
    norm_num
  · have h := samplePixelsGo_planar img size f (visitedCoords size stride) [] k
    have hlen := congrArg List.length h
    simpa [samplePixels] using hlen

/-- Witness for C5: an opaque black pixel is kept, a light and a
transparent pixel are not. -/
theorem includePixel_threshold_witness :
    includePixel 0 0 0 255 = true ∧ includePixel 200 200 200 255 = false ∧
      includePixel 0 0 0 100 = false :=
  ⟨(includePixel_threshold 0 0 0 255 (fun _ _ => ⟨0,0,0,0⟩) 0 1 (fun _ => 0) 0).2.1
      ⟨rfl, rfl⟩,
   (includePixel_threshold 200 200 200 255 (fun _ _ => ⟨0,0,0,0⟩) 0 1 (fun _ => 0) 0).1
      (Or.inr (by norm_num)),
   (includePixel_threshold 0 0 0 100 (fun _ _ => ⟨0,0,0,0⟩) 0 1 (fun _ => 0) 0).1
      (Or.inl (by norm_num))⟩

/-- C9: for a fixed image, size and stride, two sampler runs with different
random streams produce the same planar coordinates in the same order (hence
the same count); only the depth coordinates can differ. -/
theorem sampling_planar_deterministic (img : ℕ → ℕ → Pixel) (size stride : ℕ)
    (f1 f2 : ℕ → ℚ) (k1 k2 : ℕ) :
    (samplePixels img size stride f1 k1).1.map planarXY =
      (samplePixels img size stride f2 k2).1.map planarXY ∧
    (samplePixels img size stride f1 k1).1.length =
      (samplePixels img size stride f2 k2).1.length := by
  have h1 := samplePixelsGo_planar img size f1 (visitedCoords size stride) [] k1
  have h2 := samplePixelsGo_planar img size f2 (visitedCoords size stride) [] k2
  constructor
  · rw [samplePixels, samplePixels, h1, h2]
  · have := h1.trans h2.symm
    calc (samplePixels img size stride f1 k1).1.length
        = ((samplePixels img size stride f1 k1).1.map planarXY).length := by
          rw [List.length_map]
      _ = ((samplePixels img size stride f2 k2).1.map planarXY).length := by
          rw [samplePixels, samplePixels, this]
      _ = (samplePixels img size stride f2 k2).1.length := by rw [List.length_map]

/-- The flags after the trigger has fired (tree-engine.js lines 726-728). -/
def grownGrowthState : GrowthState :=
  { isGrown := true, saplingAnimationEnabled := false, flowAnimationEnabled := true }

/-- C7: the growth trigger is idempotent: it is a no-op (no state change, no
new timer) whenever `isGrown` is already set; from page load, any positive
number of invocations yields the grown flags with exactly one growth timer
ever started, so `isGrown` goes from `false` to `true` exactly once and
permanently. -/
theorem growTree_idempotent (s : GrowthState) (n : ℕ) (hs : s.isGrown = true)
    (hn : 1 ≤ n) :
    growTree s = (s, false) ∧
    (growTree initialGrowthState).1.isGrown = true ∧
    (growTree initialGrowthState).2 = true ∧
    growTreeIter n = (grownGrowthState, 1) := by
  refine ⟨by simp [growTree, hs], rfl, rfl, ?_⟩
  induction n with
  | zero => omega
  | succ m ih =>
    match m, ih with
    | 0, _ => rfl
    | m + 1, ih =>
      rw [growTreeIter, ih (by omega)]
      rfl

/-- Witness for C7: three invocations from page load leave the grown state
with a single timer, and a fourth is a no-op. -/
theorem growTree_idempotent_witness :
    growTree grownGrowthState = (grownGrowthState, false) ∧
    growTreeIter 3 = (grownGrowthState, 1) :=
  ⟨(growTree_idempotent grownGrowthState 3 rfl (by norm_num)).1,
   (growTree_idempotent grownGrowthState 3 rfl (by norm_num)).2.2.2⟩

/-- C6: once `elapsed ≥ duration` (`progress = 1`), the `animateGrowth`
frame sets every particle's `currentOpacity` to 1, writes 1 to every entry
of the opacity buffer, does not request another frame (no further opacity
computation), and the growth state reached by the trigger has
`isGrown = true`. -/
theorem animateGrowthFrame_completion (elapsed duration : ℚ)
    (ps : List Particle) (s : GrowthState)
    (hd : 0 < duration) (h : duration ≤ elapsed) :
    (animateGrowthFrame elapsed duration ps).1.map (·.currentOpacity) =
      List.replicate ps.length 1 ∧
    (animateGrowthFrame elapsed duration ps).2.1 = List.replicate ps.length 1 ∧
    (animateGrowthFrame elapsed duration ps).2.2 = false ∧
    (growTree s).1.isGrown = true := by
  have hprog : min (elapsed / duration) 1 = 1 :=
    min_eq_right ((one_le_div hd).2 h)
  have hlt : ¬ min (elapsed / duration) 1 < 1 := by rw [hprog]; exact lt_irrefl 1
  refine ⟨?_, ?_, ?_, ?_⟩
  · simp only [animateGrowthFrame, hlt, if_false]
    simp [List.map_map, Function.comp_def, List.map_const']
  · simp only [animateGrowthFrame, hlt, if_false]
    simp [List.map_map, Function.comp_def, List.map_const']
  · simp only [animateGrowthFrame, hlt, if_false]
  · rw [growTree]
    split
    · next hg => simpa using hg
    · rfl

/-- Witness for C6 at a concrete completed frame. -/
theorem animateGrowthFrame_completion_witness :
    (animateGrowthFrame 12000 10000
        [{ originalX := 0, originalY := 0, originalZ := 0,
           isSaplingParticle := false, growthOrder := 7/10, currentOpacity := 0,
           targetOpacity := 1, phaseY := 0, phaseX := 0, speedMultiplier := 1,
           windOffsetX := 0, windOffsetY := 0, flowOffset := 0, driftX := 0,
           driftZ := 0 }]).1.map (·.currentOpacity) = List.replicate 1 1 ∧
    (animateGrowthFrame 12000 10000
        [{ originalX := 0, originalY := 0, originalZ := 0,
           isSaplingParticle := false, growthOrder := 7/10, currentOpacity := 0,
           targetOpacity := 1, phaseY := 0, phaseX := 0, speedMultiplier := 1,
           windOffsetX := 0, windOffsetY := 0, flowOffset := 0, driftX := 0,
           driftZ := 0 }]).2.1 = List.replicate 1 1 ∧
    (animateGrowthFrame 12000 10000
        [{ originalX := 0, originalY := 0, originalZ := 0,
           isSaplingParticle := false, growthOrder := 7/10, currentOpacity := 0,
           targetOpacity := 1, phaseY := 0, phaseX := 0, speedMultiplier := 1,
           windOffsetX := 0, windOffsetY := 0, flowOffset := 0, driftX := 0,
           driftZ := 0 }]).2.2 = false ∧
    (growTree initialGrowthState).1.isGrown = true :=
  animateGrowthFrame_completion 12000 10000 _ initialGrowthState
    (by norm_num) (by norm_num)

/-- C1: during the `GROWING` phase (`0 ≤ elapsed < duration`, so
`progress = clamp(elapsed / duration, 0, 1) = elapsed / duration < 1`), the
`animateGrowth` frame gives every sapling particle opacity 1 and every
non-sapling particle the claimed piecewise opacity of
`d = progress * (1 + 0.25) - growthOrder` (0 below 0, `d / 0.25` on
`[0, 0.25)`, 1 from 0.25 on), in both the particle records and the opacity
buffer, and requests a further frame. -/
theorem animateGrowthFrame_growing (elapsed duration : ℚ) (ps : List Particle)
    (h0 : 0 ≤ elapsed) (h1 : elapsed < duration) :
    (animateGrowthFrame elapsed duration ps).1 =
      ps.map (fun p =>
        { p with
          currentOpacity := claimedGrowthOpacity (clampQ (elapsed / duration) 0 1)
            p.growthOrder p.isSaplingParticle }) ∧
    (animateGrowthFrame elapsed duration ps).2.1 =
      ps.map (fun p => claimedGrowthOpacity (clampQ (elapsed / duration) 0 1)
        p.growthOrder p.isSaplingParticle) ∧
    (animateGrowthFrame elapsed duration ps).2.2 = true := by
  have hd : 0 < duration := lt_of_le_of_lt h0 h1
  have hq : elapsed / duration < 1 := (div_lt_one hd).2 h1
  have hq0 : 0 ≤ elapsed / duration := div_nonneg h0 (le_of_lt hd)
  have hprog : min (elapsed / duration) 1 = elapsed / duration :=
    min_eq_left (le_of_lt hq)
  have hclamp : clampQ (elapsed / duration) 0 1 = elapsed / duration := by
    rw [clampQ, min_eq_left (le_of_lt hq), max_eq_right hq0]
  refine ⟨?_, ?_, ?_⟩
  · simp only [animateGrowthFrame, hprog, hclamp, if_pos hq]
    refine List.map_congr_left fun p _ => ?_
    by_cases hs : p.isSaplingParticle <;>
      simp [hs, claimedGrowthOpacity]
  · simp only [animateGrowthFrame, hprog, hclamp, if_pos hq, List.map_map]
    refine List.map_congr_left fun p _ => ?_
    by_cases hs : p.isSaplingParticle <;>
      simp [hs, claimedGrowthOpacity, Function.comp_def]
  · simp only [animateGrowthFrame, hprog, if_pos hq]

/-- Witness for C1: a mid-growth frame (`progress = 0.4`) on a sapling
particle, a revealed, a fading and a hidden non-sapling particle. -/
theorem animateGrowthFrame_growing_witness :
    (animateGrowthFrame 4000 10000
        [{ originalX := 0, originalY := 0, originalZ := 0,
           isSaplingParticle := true, growthOrder := 9/10, currentOpacity := 1,
           targetOpacity := 1, phaseY := 0, phaseX := 0, speedMultiplier := 1,
           windOffsetX := 0, windOffsetY := 0, flowOffset := 0, driftX := 0,
           driftZ := 0 },
         { originalX := 0, originalY := 0, originalZ := 0,
           isSaplingParticle := false, growthOrder := 1/10, currentOpacity := 0,
           targetOpacity := 1, phaseY := 0, phaseX := 0, speedMultiplier := 1,
           windOffsetX := 0, windOffsetY := 0, flowOffset := 0, driftX := 0,
           driftZ := 0 },
         { originalX := 0, originalY := 0, originalZ := 0,
           isSaplingParticle := false, growthOrder := 2/5, currentOpacity := 0,
           targetOpacity := 1, phaseY := 0, phaseX := 0, speedMultiplier := 1,
           windOffsetX := 0, windOffsetY := 0, flowOffset := 0, driftX := 0,
           driftZ := 0 },
         { originalX := 0, originalY := 0, originalZ := 0,
           isSaplingParticle := false, growthOrder := 9/10, currentOpacity := 0,
           targetOpacity := 1, phaseY := 0, phaseX := 0, speedMultiplier := 1,
           windOffsetX := 0, windOffsetY := 0, flowOffset := 0, driftX := 0,
           driftZ := 0 }]).2.1 =
      [claimedGrowthOpacity (clampQ (4000 / 10000) 0 1) (9/10) true,
       claimedGrowthOpacity (clampQ (4000 / 10000) 0 1) (1/10) false,
       claimedGrowthOpacity (clampQ (4000 / 10000) 0 1) (2/5) false,
       claimedGrowthOpacity (clampQ (4000 / 10000) 0 1) (9/10) false] :=
  (animateGrowthFrame_growing 4000 10000 _ (by norm_num) (by norm_num)).2.1

/-- C8: the logo sampler's seed depth is the full
`(uniform - 0.5) * depthRange`, but the tree sampler attenuates it by the
height-dependent `depthMultiplier`, so the depth range does depend on the
seed's height: `z = (rand - 0.5) * 25 * depthMultiplier((posY + 512)/1024)`
with `0 < depthMultiplier ≤ 1`, giving `|z| ≤ 12.5 * depthMultiplier`
(and `|z| ≤ 40` for the logo). -/
theorem sample_depth_attenuated (rand posY : ℚ) (h0 : 0 ≤ rand) (h1 : rand < 1) :
    treeSampleZ rand posY =
      (rand - 1/2) * 25 * depthMultiplier ((posY + 512) / 1024) ∧
    0 < depthMultiplier ((posY + 512) / 1024) ∧
    depthMultiplier ((posY + 512) / 1024) ≤ 1 ∧
    |treeSampleZ rand posY| ≤ 25/2 * depthMultiplier ((posY + 512) / 1024) ∧
    logoSampleZ rand = (rand - 1/2) * 80 ∧
    |logoSampleZ rand| ≤ 40 := by
  have habs : |rand - 1/2| ≤ 1/2 := abs_le.2 ⟨by linarith, by linarith⟩
  have hm0 : 0 < depthMultiplier ((posY + 512) / 1024) := by
    rw [depthMultiplier]
    split
    · norm_num
    · split
      · norm_num
      · split <;> norm_num
  have hm1 : depthMultiplier ((posY + 512) / 1024) ≤ 1 := by
    rw [depthMultiplier]
    split
    · norm_num
    · split
      · norm_num
      · split <;> norm_num
  refine ⟨rfl, hm0, hm1, ?_, rfl, ?_⟩
  · rw [treeSampleZ, abs_mul, abs_mul]
    rw [abs_of_pos hm0, abs_of_nonneg (by norm_num : (0:ℚ) ≤ 25)]
    have : |rand - 1/2| * 25 ≤ 1/2 * 25 := by
      apply mul_le_mul_of_nonneg_right habs (by norm_num)
    nlinarith [hm0]
  · rw [logoSampleZ, abs_mul, abs_of_nonneg (by norm_num : (0:ℚ) ≤ 80)]
    nlinarith [habs]

/-- Witness for C8's theorem at a concrete draw and height. -/
theorem sample_depth_attenuated_witness :
    treeSampleZ (9/10) 412 =
      (9/10 - 1/2) * 25 * depthMultiplier ((412 + 512) / 1024) ∧
    0 < depthMultiplier (((412 : ℚ) + 512) / 1024) ∧
    depthMultiplier (((412 : ℚ) + 512) / 1024) ≤ 1 ∧
    |treeSampleZ (9/10) 412| ≤ 25/2 * depthMultiplier (((412 : ℚ) + 512) / 1024) ∧
    logoSampleZ (9/10) = (9/10 - 1/2) * 80 ∧
    |logoSampleZ (9/10)| ≤ 40 :=
  sample_depth_attenuated (9/10) 412 (by norm_num) (by norm_num)

/-- A sqrt stand-in used by concrete runs that only ever query the square
root of `0` (all involved points sit on the central axis), where its value
agrees with the real square root. -/
def sqrtStubZero : ℚ → ℚ := fun _ => 0

/-- A concrete sampler-shaped seed set: all on the central axis
(`x = z = 0`), bottom seed at `y = -511` (raster row 1023). -/
def cexSeeds : List Pos3 :=
  [⟨0, -511, 0⟩, ⟨0, -510, 0⟩, ⟨0, -500, 0⟩, ⟨0, -490, 0⟩,
   ⟨0, -480, 0⟩, ⟨0, -470, 0⟩, ⟨0, -460, 0⟩]

/-- A concrete random stream: the first root-base seed is selected as a
start (draw `0.1 < 0.2`), the second is not (`0.5`), the branch length draw
is `0` (length 50, 12 segments), and every further draw is `0.5` (no angle
perturbation, no ring spread, no child branching). -/
def cexRand : ℕ → ℚ := fun n => if n = 0 then 1/10 else if n = 2 then 0 else 1/2

/-- Counterexample to C2: root extension drives particles below the image's
bottom edge (`y < -512`), where `growthOrder < 0`.  Here the first emitted
root particle sits at `y = -513.25`, giving
`growthOrder = 0.6 * (-1.25/1024) = -3/4096`. -/
theorem growthOrder_root_extension_cex :
    ∃ p ∈ (extendRoots sqrtStubZero cexRand cexSeeds 0).1,
      p.y < -512 ∧ growthOrder sqrtStubZero p < 0 := by
  with_unfolding_all decide

/-- C2 (amended): the growth rank lies in `[0, 1]` for every particle built
from a base sampled seed (any image, `size ≤ 1024`, any stride and stream,
with a nonnegative square root); extension particles can leave the range
(see the counterexample). -/
theorem growthOrder_sampled_in_unit (img : ℕ → ℕ → Pixel) (size stride : ℕ)
    (f : ℕ → ℚ) (k : ℕ) (sqrtF : ℚ → ℚ) (p : Pos3)
    (hp : p ∈ (samplePixels img size stride f k).1)
    (hsize : size ≤ 1024)
    (hs : 0 ≤ sqrtF (p.x ^ 2 + p.z ^ 2)) :
    0 ≤ growthOrder sqrtF p ∧ growthOrder sqrtF p ≤ 1 := by
  rcases samplePixelsGo_mem img size f _ [] k p hp with h | ⟨c, hc, hy⟩
  · simp at h
  · have hc2 := (visitedCoords_mem hc).2
    have hsz : (size : ℚ) ≤ 1024 := by exact_mod_cast hsize
    have hcq : (c.2 : ℚ) + 1 ≤ (size : ℚ) := by exact_mod_cast hc2
    have hcq0 : (0 : ℚ) ≤ (c.2 : ℚ) := Nat.cast_nonneg _
    have hyb1 : p.y ≤ 512 := by rw [hy]; linarith
    have hyb0 : -512 ≤ p.y := by rw [hy]; linarith
    have hny0 : 0 ≤ (p.y + 512) / 1024 := by
      apply div_nonneg (by linarith) (by norm_num)
    have hny1 : (p.y + 512) / 1024 ≤ 1 := by
      rw [div_le_one (by norm_num)]
      linarith
    have hnd0 : 0 ≤ min (sqrtF (p.x ^ 2 + p.z ^ 2) / 512) 1 :=
      le_min (div_nonneg hs (by norm_num)) (by norm_num)
    have hnd1 : min (sqrtF (p.x ^ 2 + p.z ^ 2) / 512) 1 ≤ 1 := min_le_right _ _
    simp only [growthOrder]
    constructor
    · have := mul_nonneg hny0 (by norm_num : (0:ℚ) ≤ 6/10)
      have := mul_nonneg hnd0 (by norm_num : (0:ℚ) ≤ 4/10)
      linarith
    · have h1 : (p.y + 512) / 1024 * (6/10) ≤ 6/10 := by nlinarith
      have h2 : min (sqrtF (p.x ^ 2 + p.z ^ 2) / 512) 1 * (4/10) ≤ 4/10 := by
        nlinarith
      linarith

/-- A fully opaque, fully black test image. -/
def imgBlackOpaque : ℕ → ℕ → Pixel := fun _ _ => ⟨0, 0, 0, 255⟩

/-- The constant-half random stream. -/
def randHalf : ℕ → ℚ := fun _ => 1/2

/-- Witness for C2's amended theorem: the seed sampled at pixel `(0, 0)` of
a 2x2 black image (planar position `(-1, 1)`, zero depth). -/
theorem growthOrder_sampled_in_unit_witness :
    0 ≤ growthOrder sqrtStubZero ⟨-1, 1, 0⟩ ∧
      growthOrder sqrtStubZero ⟨-1, 1, 0⟩ ≤ 1 :=
  growthOrder_sampled_in_unit imgBlackOpaque 2 1 randHalf 0 sqrtStubZero
    ⟨-1, 1, 0⟩ (by with_unfolding_all decide) (by norm_num)
    (by norm_num [sqrtStubZero])

/-- A tree particle at baseline rest: all offsets zero, unit speed
multiplier, zero phases, not part of the sapling. -/
def particleAtRest : Particle :=
  { originalX := 0, originalY := 0, originalZ := 0, isSaplingParticle := false,
    growthOrder := 0, currentOpacity := 0, targetOpacity := 1, phaseY := 0,
    phaseX := 0, speedMultiplier := 1, windOffsetX := 0, windOffsetY := 0,
    flowOffset := 0, driftX := 0, driftZ := 0 }

/-- The same particle marked as part of the sapling subset. -/
def saplingAtRest : Particle :=
  { particleAtRest with isSaplingParticle := true }

/-- A logo particle at baseline rest. -/
def logoAtRest : LogoParticle :=
  { originalX := 0, originalY := 0, originalZ := 0, phaseY := 0, phaseX := 0,
    speedMultiplier := 1, windOffsetX := 0, windOffsetY := 0 }

/-- Counterexample to C3: the tree's full-flow update applies no periodic
sine term at all - its output is independent of elapsed time - so no fixed
nonzero amplitude can make the claimed decomposition hold.  The refuting
instance queries the abstract square root only at `0` (the pointer rests on
the particle and is stationary), where `sqrtStubZero` agrees with the real
square root. -/
theorem fullFlow_no_periodic_float : ¬ fullFlowHasPeriodicFloat := by
  rintro ⟨A, hA, h⟩
  have h1 := h (Real.pi / 2) sqrtStubZero randHalf 0 0 0 0 particleAtRest 0
  have eY : (updateFullTreeFlowParticle sqrtStubZero randHalf 0 0 0 0
      particleAtRest 0).2.1.2.1 = 12/100 := by with_unfolding_all decide
  have eF : (updateFullTreeFlowParticle sqrtStubZero randHalf 0 0 0 0
      particleAtRest 0).1.flowOffset = 12/100 := by with_unfolding_all decide
  have eW : (updateFullTreeFlowParticle sqrtStubZero randHalf 0 0 0 0
      particleAtRest 0).1.windOffsetY = 0 := by with_unfolding_all decide
  rw [eY, eF, eW] at h1
  norm_num [particleAtRest, Real.sin_pi_div_two] at h1
  exact hA h1

/-- C3 (amended): in the tree variant the displayed position is baseline
plus the flow terms (`flowOffset`, `driftX`, `driftZ`) plus the force
offsets (`windOffsetX/Y`) with no periodic sine/cosine term - the update
reads neither the clock nor `phaseX`, `phaseY`, `speedMultiplier`; the
sapling mode moves exactly the sapling particles with the same body; the
logo variant's displayed position is baseline plus the sine/cosine
float/sway terms (scaled by the particle's `speedMultiplier` and phases)
plus the force offset, with no flow term and `z` unchanged. -/
theorem kinematic_decomposition (sqrtF sinF cosF : ℚ → ℚ)
    (atan2F : ℚ → ℚ → ℚ) (f : ℕ → ℚ) (mx my vx vy t a b c2 : ℚ)
    (p : Particle) (q : LogoParticle) (k : ℕ) :
    (updateFullTreeFlowParticle sqrtF f mx my vx vy p k).2.1 =
      (p.originalX + (updateFullTreeFlowParticle sqrtF f mx my vx vy p k).1.driftX +
         (updateFullTreeFlowParticle sqrtF f mx my vx vy p k).1.windOffsetX,
       p.originalY + (updateFullTreeFlowParticle sqrtF f mx my vx vy p k).1.flowOffset +
         (updateFullTreeFlowParticle sqrtF f mx my vx vy p k).1.windOffsetY,
       p.originalZ + (updateFullTreeFlowParticle sqrtF f mx my vx vy p k).1.driftZ) ∧
    updateFullTreeFlowParticle sqrtF f mx my vx vy
        { p with phaseX := a, phaseY := b, speedMultiplier := c2 } k =
      ({ (updateFullTreeFlowParticle sqrtF f mx my vx vy p k).1 with
          phaseX := a, phaseY := b, speedMultiplier := c2 },
       (updateFullTreeFlowParticle sqrtF f mx my vx vy p k).2) ∧
    (p.isSaplingParticle = true →
      updateSaplingParticle sqrtF f mx my vx vy p k =
        ((updateFullTreeFlowParticle sqrtF f mx my vx vy p k).1,
         some (updateFullTreeFlowParticle sqrtF f mx my vx vy p k).2.1,
         (updateFullTreeFlowParticle sqrtF f mx my vx vy p k).2.2)) ∧
    (p.isSaplingParticle = false →
      updateSaplingParticle sqrtF f mx my vx vy p k = (p, none, k)) ∧
    (updateLogoParticle sqrtF sinF cosF atan2F t mx my q).2 =
      (q.originalX + cosF (t * q.speedMultiplier * (7/10) + q.phaseX) * 4 +
         (updateLogoParticle sqrtF sinF cosF atan2F t mx my q).1.windOffsetX,
       q.originalY + sinF (t * q.speedMultiplier + q.phaseY) * 5 +
         (updateLogoParticle sqrtF sinF cosF atan2F t mx my q).1.windOffsetY,
       q.originalZ) := by
  refine ⟨rfl, rfl, fun hs => ?_, fun hs => ?_, rfl⟩
  · simp [updateSaplingParticle, hs]
  · simp [updateSaplingParticle, hs]

/-- Witness for C3's amended theorem: a non-sapling particle is untouched by
the sapling mode, a sapling particle is moved by the shared body. -/
theorem kinematic_decomposition_witness :
    updateSaplingParticle sqrtStubZero randHalf 0 0 0 0 particleAtRest 0 =
      (particleAtRest, none, 0) ∧
    updateSaplingParticle sqrtStubZero randHalf 0 0 0 0 saplingAtRest 0 =
      ((updateFullTreeFlowParticle sqrtStubZero randHalf 0 0 0 0
          saplingAtRest 0).1,
       some (updateFullTreeFlowParticle sqrtStubZero randHalf 0 0 0 0
          saplingAtRest 0).2.1,
       (updateFullTreeFlowParticle sqrtStubZero randHalf 0 0 0 0
          saplingAtRest 0).2.2) :=
  ⟨(kinematic_decomposition sqrtStubZero sqrtStubZero sqrtStubZero
      (fun _ _ => 0) randHalf 0 0 0 0 0 0 0 0 particleAtRest logoAtRest
      0).2.2.2.1 rfl,
   (kinematic_decomposition sqrtStubZero sqrtStubZero sqrtStubZero
      (fun _ _ => 0) randHalf 0 0 0 0 0 0 0 0 saplingAtRest logoAtRest
      0).2.2.1 rfl⟩

/-- The constant stream drawing `0.9` every time. -/
def randNineTenths : ℕ → ℚ := fun _ => 9/10

/-- Counterexample to C8: with every draw equal to `0.9` the claim forces
`z = (0.9 - 0.5) * 25 = 10` for every tree-sampler seed, but a sampled
seed's depth is attenuated by the height-dependent multiplier
(`z = 1.2` or `1.8` here). -/
theorem treeSampleZ_cex :
    ∃ p ∈ (samplePixels imgBlackOpaque 8 1 randNineTenths 0).1,
      p.z = 6/5 ∧ p.z ≠ (9/10 - 1/2) * 25 := by
  with_unfolding_all decide

/-! ### Bounds for C4 -/

/-- `ringLoop` emits exactly its ring count. -/
theorem ringLoop_length (f : ℕ → ℚ) (sR cx cy cz : ℚ) :
    ∀ (m : ℕ) (arr : List Pos3) (k : ℕ),
      (ringLoop f sR cx cy cz m arr k).1.length = arr.length + m
  | 0, arr, k => by simp [ringLoop]
  | m + 1, arr, k => by
    rw [ringLoop, ringLoop_length f sR cx cy cz m _ (k + 2)]
    simp
    omega

/-- Each segment iteration emits at most 4 particles
(`max(1, floor(currentThickness * 4)) ≤ 4` for `0 ≤ thickness ≤ 1`). -/
theorem segLoop_arr_length (f : ℕ → ℚ) (th : ℚ) (sc : ℕ)
    (h0 : 0 ≤ th) (h1 : th ≤ 1) :
    ∀ (fuel i : ℕ) (st : RootSt),
      (segLoop f th sc fuel i st).arr.length ≤ st.arr.length + fuel * 4 := by
  intro fuel
  induction fuel with
  | zero => intro i st; simp [segLoop]
  | succ fuel ih =>
    intro i st
    rw [segLoop]
    have hprog : (0:ℚ) ≤ (i : ℚ) / (sc : ℚ) :=
      div_nonneg (Nat.cast_nonneg _) (Nat.cast_nonneg _)
    have hctle : th * (1 - (i:ℚ)/(sc:ℚ) * (5/10)) ≤ 1 := by nlinarith
    have hfloor : Int.floor (th * (1 - (i:ℚ)/(sc:ℚ) * (5/10)) * 4) ≤ 4 := by
      calc Int.floor (th * (1 - (i:ℚ)/(sc:ℚ) * (5/10)) * 4)
          ≤ Int.floor ((4:ℚ)) := Int.floor_le_floor (by nlinarith)
        _ = 4 := by norm_num
    have hring : max 1 (Int.floor (th * (1 - (i:ℚ)/(sc:ℚ) * (5/10)) * 4)).toNat ≤ 4 := by
      have h4 := Int.toNat_le_toNat hfloor
      simp only [Int.toNat_ofNat] at h4
      omega
    have hrl := ringLoop_length f (th * (1 - (i:ℚ)/(sc:ℚ) * (5/10)) * (15/10))
      (st.curX + (st.angleX + (f st.k - 1/2) * (25/100)) * (35/10))
      (st.curY + (st.angleY + (f (st.k + 1) - 1/2) * (15/100)) * 3)
      (st.curZ + (st.angleZ + (f (st.k + 2) - 1/2) * (25/100)) * (35/10))
      (max 1 (Int.floor (th * (1 - (i:ℚ)/(sc:ℚ) * (5/10)) * 4)).toNat)
      st.arr (st.k + 3)
    have hih := ih (i + 1)
      ⟨st.angleX + (f st.k - 1/2) * (25/100),
       st.angleY + (f (st.k + 1) - 1/2) * (15/100),
       st.angleZ + (f (st.k + 2) - 1/2) * (25/100),
       st.curX + (st.angleX + (f st.k - 1/2) * (25/100)) * (35/10),
       st.curY + (st.angleY + (f (st.k + 1) - 1/2) * (15/100)) * 3,
       st.curZ + (st.angleZ + (f (st.k + 2) - 1/2) * (25/100)) * (35/10),
       (ringLoop f (th * (1 - (i:ℚ)/(sc:ℚ) * (5/10)) * (15/10))
          (st.curX + (st.angleX + (f st.k - 1/2) * (25/100)) * (35/10))
          (st.curY + (st.angleY + (f (st.k + 1) - 1/2) * (15/100)) * 3)
          (st.curZ + (st.angleZ + (f (st.k + 2) - 1/2) * (25/100)) * (35/10))
          (max 1 (Int.floor (th * (1 - (i:ℚ)/(sc:ℚ) * (5/10)) * 4)).toNat)
          st.arr (st.k + 3)).1,
       (ringLoop f (th * (1 - (i:ℚ)/(sc:ℚ) * (5/10)) * (15/10))
          (st.curX + (st.angleX + (f st.k - 1/2) * (25/100)) * (35/10))
          (st.curY + (st.angleY + (f (st.k + 1) - 1/2) * (15/100)) * 3)
          (st.curZ + (st.angleZ + (f (st.k + 2) - 1/2) * (25/100)) * (35/10))
          (max 1 (Int.floor (th * (1 - (i:ℚ)/(sc:ℚ) * (5/10)) * 4)).toNat)
          st.arr (st.k + 3)).2⟩
    simp only at hih hrl ⊢
    omega

/-- A branch-length draw in `[0, 1)` yields at most 29 segments
(`floor((50 + r*70)/4) ≤ 29`). -/
theorem segments_le_29 (r : ℚ) (_h0 : 0 ≤ r) (h1 : r < 1) :
    (Int.floor ((50 + r * 70) / 4)).toNat ≤ 29 := by
  have hlt : (50 + r * 70) / 4 < 30 := by
    rw [div_lt_iff₀ (by norm_num : (0:ℚ) < 4)]
    linarith
  have hf : Int.floor ((50 + r * 70) / 4) < 30 :=
    Int.floor_lt.2 (by exact_mod_cast hlt)
  omega

/-- Unfolding of a depth-1 (`b = 1`) `createRootBranchB` call past its
guard: the segment loop runs and no child branching happens (`depth < 1`
fails). -/
theorem createRootBranchB_one_eq (f : ℕ → ℚ) (sp : Pos3) (arr : List Pos3)
    (th bx bz : ℚ) (k : ℕ) (hg : ¬(th < 1/5 ∨ 100000 < arr.length)) :
    createRootBranchB f 1 sp arr th bx bz k =
      ((segLoop f th ((Int.floor ((50 + f k * 70) / 4)).toNat)
          ((Int.floor ((50 + f k * 70) / 4)).toNat) 0
          ⟨bx * (12/10) + (f (k + 1) - 1/2) * (4/10),
           -(6/10) - f (k + 2) * (3/10),
           bz * (12/10) + (f (k + 3) - 1/2) * (4/10),
           sp.x, sp.y, sp.z, arr, k + 4⟩).arr,
       (segLoop f th ((Int.floor ((50 + f k * 70) / 4)).toNat)
          ((Int.floor ((50 + f k * 70) / 4)).toNat) 0
          ⟨bx * (12/10) + (f (k + 1) - 1/2) * (4/10),
           -(6/10) - f (k + 2) * (3/10),
           bz * (12/10) + (f (k + 3) - 1/2) * (4/10),
           sp.x, sp.y, sp.z, arr, k + 4⟩).k) := by
  show createRootBranchB f (0 + 1) sp arr th bx bz k = _
  rw [createRootBranchB, if_neg hg]
  rfl

/-- Unfolding of a depth-0 (`b = 2`) `createRootBranchB` call past its
guard: the segment loop runs and the branching conditional follows. -/
theorem createRootBranchB_two_eq (f : ℕ → ℚ) (sp : Pos3) (arr : List Pos3)
    (th bx bz : ℚ) (k : ℕ) (hg : ¬(th < 1/5 ∨ 100000 < arr.length)) :
    createRootBranchB f 2 sp arr th bx bz k =
      (fun st : RootSt =>
        if f st.k < 7/20 ∧ st.arr.length < 80000 then
          childLoop (fun sp a th bx bz kk => createRootBranchB f 1 sp a th bx bz kk)
            f (if f (st.k + 1) < 7/10 then 2 else 3) (th * (6/10))
            st.angleX st.angleZ st.curX st.curY st.curZ st.arr (st.k + 2)
        else (st.arr, st.k + 1))
      (segLoop f th ((Int.floor ((50 + f k * 70) / 4)).toNat)
        ((Int.floor ((50 + f k * 70) / 4)).toNat) 0
        ⟨bx * (12/10) + (f (k + 1) - 1/2) * (4/10),
         -(6/10) - f (k + 2) * (3/10),
         bz * (12/10) + (f (k + 3) - 1/2) * (4/10),
         sp.x, sp.y, sp.z, arr, k + 4⟩) := by
  show createRootBranchB f (1 + 1) sp arr th bx bz k = _
  rw [createRootBranchB, if_neg hg]
  rfl

/-- A depth-1 call of `createRootBranchB` (no further branching) adds at
most `29 * 4 = 116` particles. -/
theorem createRootBranchB_len_one (f : ℕ → ℚ) (hf : ∀ n, 0 ≤ f n ∧ f n < 1)
    (sp : Pos3) (arr : List Pos3) (th bx bz : ℚ) (k : ℕ)
    (h0 : 0 ≤ th) (h1 : th ≤ 1) :
    (createRootBranchB f 1 sp arr th bx bz k).1.length ≤ arr.length + 116 := by
  by_cases hg : th < 1/5 ∨ 100000 < arr.length
  · show (createRootBranchB f (0 + 1) sp arr th bx bz k).1.length ≤ arr.length + 116
    rw [createRootBranchB, if_pos hg]
    simp
  · rw [createRootBranchB_one_eq f sp arr th bx bz k hg]
    have hsc := segments_le_29 (f k) (hf k).1 (hf k).2
    have hseg := segLoop_arr_length f th ((Int.floor ((50 + f k * 70) / 4)).toNat)
      h0 h1 ((Int.floor ((50 + f k * 70) / 4)).toNat) 0
      ⟨bx * (12/10) + (f (k + 1) - 1/2) * (4/10),
       -(6/10) - f (k + 2) * (3/10),
       bz * (12/10) + (f (k + 3) - 1/2) * (4/10),
       sp.x, sp.y, sp.z, arr, k + 4⟩
    simp only at hseg ⊢
    omega

/-- The child loop with depth-1 recursive calls adds at most `n * 116`
particles. -/
theorem childLoop_len_one (f : ℕ → ℚ) (hf : ∀ n, 0 ≤ f n ∧ f n < 1)
    (cth aX aZ cX cY cZ : ℚ) (h0 : 0 ≤ cth) (h1 : cth ≤ 1) :
    ∀ (n : ℕ) (arr : List Pos3) (k : ℕ),
      (childLoop (fun sp a th bx bz kk => createRootBranchB f 1 sp a th bx bz kk)
        f n cth aX aZ cX cY cZ arr k).1.length ≤ arr.length + n * 116 := by
  intro n
  induction n with
  | zero => intro arr k; simp [childLoop]
  | succ m ih =>
    intro arr k
    rw [childLoop]
    have hc := createRootBranchB_len_one f hf
      ⟨cX + (f k - 1/2) * 15, cY, cZ + (f (k + 1) - 1/2) * 15⟩
      arr cth (aX + (f (k + 2) - 1/2) * (1/2)) (aZ + (f (k + 3) - 1/2) * (1/2))
      (k + 4) h0 h1
    have hih := ih (createRootBranchB f 1
        ⟨cX + (f k - 1/2) * 15, cY, cZ + (f (k + 1) - 1/2) * 15⟩
        arr cth (aX + (f (k + 2) - 1/2) * (1/2)) (aZ + (f (k + 3) - 1/2) * (1/2))
        (k + 4)).1
      (createRootBranchB f 1
        ⟨cX + (f k - 1/2) * 15, cY, cZ + (f (k + 1) - 1/2) * 15⟩
        arr cth (aX + (f (k + 2) - 1/2) * (1/2)) (aZ + (f (k + 3) - 1/2) * (1/2))
        (k + 4)).2
    simp only at hih hc ⊢
    omega

/-- A call of `createRootBranchB` with budget at most 2 (any source depth)
adds at most `116 + 3 * 116 = 464` particles. -/
theorem createRootBranchB_len (f : ℕ → ℚ) (hf : ∀ n, 0 ≤ f n ∧ f n < 1)
    (b : ℕ) (hb : b ≤ 2) (sp : Pos3) (arr : List Pos3) (th bx bz : ℚ) (k : ℕ)
    (h0 : 0 ≤ th) (h1 : th ≤ 1) :
    (createRootBranchB f b sp arr th bx bz k).1.length ≤ arr.length + 464 := by
  match b, hb with
  | 0, _ => simp [createRootBranchB]
  | 1, _ =>
    exact le_trans (createRootBranchB_len_one f hf sp arr th bx bz k h0 h1)
      (by omega)
  | 2, _ =>
    by_cases hg : th < 1/5 ∨ 100000 < arr.length
    · show (createRootBranchB f (1 + 1) sp arr th bx bz k).1.length ≤ arr.length + 464
      rw [createRootBranchB, if_pos hg]
      simp
    · rw [createRootBranchB_two_eq f sp arr th bx bz k hg]
      have hsc := segments_le_29 (f k) (hf k).1 (hf k).2
      set st := segLoop f th ((Int.floor ((50 + f k * 70) / 4)).toNat)
        ((Int.floor ((50 + f k * 70) / 4)).toNat) 0
        ⟨bx * (12/10) + (f (k + 1) - 1/2) * (4/10),
         -(6/10) - f (k + 2) * (3/10),
         bz * (12/10) + (f (k + 3) - 1/2) * (4/10),
         sp.x, sp.y, sp.z, arr, k + 4⟩ with hst
      have hseg : st.arr.length ≤ arr.length +
          ((Int.floor ((50 + f k * 70) / 4)).toNat) * 4 := by
        rw [hst]
        exact segLoop_arr_length f th _ h0 h1 _ 0 _
      simp only
      split
      · have hchild := childLoop_len_one f hf (th * (6/10)) st.angleX st.angleZ
          st.curX st.curY st.curZ (by positivity) (by nlinarith)
          (if f (st.k + 1) < 7/10 then 2 else 3) st.arr (st.k + 2)
        have hnb : (if f (st.k + 1) < 7/10 then 2 else 3) * 116 ≤ 348 := by
          split <;> norm_num
        omega
      · show st.arr.length ≤ arr.length + 464
        omega

/-- `createRootBranch` (any depth) adds at most 464 particles when the
thickness is in `[0, 1]`. -/
theorem createRootBranch_len (f : ℕ → ℚ) (hf : ∀ n, 0 ≤ f n ∧ f n < 1)
    (sp : Pos3) (arr : List Pos3) (depth : ℕ) (th bx bz : ℚ) (k : ℕ)
    (h0 : 0 ≤ th) (h1 : th ≤ 1) :
    (createRootBranch f sp arr depth th bx bz k).1.length ≤ arr.length + 464 :=
  createRootBranchB_len f hf (2 - depth) (by omega) sp arr th bx bz k h0 h1

/-- The per-start loop of root extension adds at most 464 particles per
start. -/
theorem startsLoop_len (sqrtF : ℚ → ℚ) (f : ℕ → ℚ)
    (hf : ∀ n, 0 ≤ f n ∧ f n < 1) (cX cZ : ℚ) :
    ∀ (starts arr : List Pos3) (k : ℕ),
      (startsLoop sqrtF f cX cZ starts arr k).1.length ≤
        arr.length + starts.length * 464 := by
  intro starts
  induction starts with
  | nil => intro arr k; simp [startsLoop]
  | cons s rest ih =>
    intro arr k
    rw [startsLoop]
    have hc := createRootBranch_len f hf s arr 0 1
      ((s.x - cX) / (if sqrtF ((s.x - cX) ^ 2 + (s.z - cZ) ^ 2) = 0 then 1
        else sqrtF ((s.x - cX) ^ 2 + (s.z - cZ) ^ 2)))
      ((s.z - cZ) / (if sqrtF ((s.x - cX) ^ 2 + (s.z - cZ) ^ 2) = 0 then 1
        else sqrtF ((s.x - cX) ^ 2 + (s.z - cZ) ^ 2)))
      k (by norm_num) (by norm_num)
    have hih := ih (createRootBranch f s arr 0 1
      ((s.x - cX) / (if sqrtF ((s.x - cX) ^ 2 + (s.z - cZ) ^ 2) = 0 then 1
        else sqrtF ((s.x - cX) ^ 2 + (s.z - cZ) ^ 2)))
      ((s.z - cZ) / (if sqrtF ((s.x - cX) ^ 2 + (s.z - cZ) ^ 2) = 0 then 1
        else sqrtF ((s.x - cX) ^ 2 + (s.z - cZ) ^ 2))) k).1
      (createRootBranch f s arr 0 1
      ((s.x - cX) / (if sqrtF ((s.x - cX) ^ 2 + (s.z - cZ) ^ 2) = 0 then 1
        else sqrtF ((s.x - cX) ^ 2 + (s.z - cZ) ^ 2)))
      ((s.z - cZ) / (if sqrtF ((s.x - cX) ^ 2 + (s.z - cZ) ^ 2) = 0 then 1
        else sqrtF ((s.x - cX) ^ 2 + (s.z - cZ) ^ 2))) k).2
    simp only [List.length_cons] at hih hc ⊢
    omega

/-- Root extension emits at most `50 * 464 = 23200 ≤ 100000` particles. -/
theorem extendRoots_len (sqrtF : ℚ → ℚ) (f : ℕ → ℚ)
    (hf : ∀ n, 0 ≤ f n ∧ f n < 1) (positions : List Pos3) (k : ℕ) :
    (extendRoots sqrtF f positions k).1.length ≤ 100000 := by
  rw [extendRoots]
  split
  · simp
  · simp only
    have h := startsLoop_len sqrtF f hf
      (((positions.filter fun p => decide (p.y ≤
          ((sortList (fun a b => decide (a.y < b.y)) positions).getD
            (positions.length * 15 / 100) default).y)).map (·.x)).sum /
        ((positions.filter fun p => decide (p.y ≤
          ((sortList (fun a b => decide (a.y < b.y)) positions).getD
            (positions.length * 15 / 100) default).y)).length : ℚ))
      (((positions.filter fun p => decide (p.y ≤
          ((sortList (fun a b => decide (a.y < b.y)) positions).getD
            (positions.length * 15 / 100) default).y)).map (·.z)).sum /
        ((positions.filter fun p => decide (p.y ≤
          ((sortList (fun a b => decide (a.y < b.y)) positions).getD
            (positions.length * 15 / 100) default).y)).length : ℚ))
      ((randFilter f (2/10) (positions.filter fun p => decide (p.y ≤
          ((sortList (fun a b => decide (a.y < b.y)) positions).getD
            (positions.length * 15 / 100) default).y)) k).1.take 50)
      []
      ((randFilter f (2/10) (positions.filter fun p => decide (p.y ≤
          ((sortList (fun a b => decide (a.y < b.y)) positions).getD
            (positions.length * 15 / 100) default).y)) k).2)
    have htake : ((randFilter f (2/10) (positions.filter fun p => decide (p.y ≤
          ((sortList (fun a b => decide (a.y < b.y)) positions).getD
            (positions.length * 15 / 100) default).y)) k).1.take 50).length ≤ 50 := by
      rw [List.length_take]
      exact min_le_left _ _
    simp only [List.length_nil] at h
    omega

/-- C4's depth guard: a call of `createRootBranch` at source depth 2 or
more returns the particle array unchanged. -/
theorem createRootBranch_depth2 (f : ℕ → ℚ) (sp : Pos3) (arr : List Pos3)
    (depth : ℕ) (th bx bz : ℚ) (k : ℕ) (h : 2 ≤ depth) :
    createRootBranch f sp arr depth th bx bz k = (arr, k) := by
  rw [createRootBranch, Nat.sub_eq_zero_of_le h, createRootBranchB]

/-- Each branch-extension segment emits at most one particle. -/
theorem branchSegLoop_len (f : ℕ → ℚ) (dX dY dZ oX oZ : ℚ) (segs : ℕ) :
    ∀ (fuel i : ℕ) (cx cy cz : ℚ) (acc : List Pos3) (k : ℕ),
      (branchSegLoop f dX dY dZ oX oZ segs fuel i cx cy cz acc k).1.length ≤
        acc.length + fuel := by
  intro fuel
  induction fuel with
  | zero => intro i cx cy cz acc k; simp [branchSegLoop]
  | succ m ih =>
    intro i cx cy cz acc k
    rw [branchSegLoop]
    split
    · refine le_trans (ih (i + 1) _ _ _ _ _) ?_
      simp only [List.length_append, List.length_cons, List.length_nil]
      omega
    · exact le_trans (ih (i + 1) _ _ _ _ _) (by omega)

/-- An extension-length draw in `[0, 1)` yields at most 19 segments
(`floor((30 + r*30)/3) ≤ 19`). -/
theorem extSegments_le_19 (r : ℚ) (_h0 : 0 ≤ r) (h1 : r < 1) :
    (Int.floor ((30 + r * 30) / 3)).toNat ≤ 19 := by
  have hlt : (30 + r * 30) / 3 < 20 := by
    rw [div_lt_iff₀ (by norm_num : (0:ℚ) < 3)]
    linarith
  have hf : Int.floor ((30 + r * 30) / 3) < 20 :=
    Int.floor_lt.2 (by exact_mod_cast hlt)
  omega

/-- The per-tip loop of branch extension adds at most 19 particles per
sampled tip. -/
theorem tipsLoop_len (f : ℕ → ℚ) (hf : ∀ n, 0 ≤ f n ∧ f n < 1) (cX : ℚ) :
    ∀ (tips : List (Pos3 × ℚ × ℚ × ℚ)) (acc : List Pos3) (k : ℕ),
      (tipsLoop f cX tips acc k).1.length ≤ acc.length + tips.length * 19 := by
  intro tips
  induction tips with
  | nil => intro acc k; simp [tipsLoop]
  | cons t rest ih =>
    intro acc k
    rw [tipsLoop]
    have hs := branchSegLoop_len f t.2.1 t.2.2.1 t.2.2.2
      (outwardBiasX t.1.x cX) ((f (k + 1) - 1/2) * (2/10))
      ((Int.floor ((30 + f k * 30) / 3)).toNat)
      ((Int.floor ((30 + f k * 30) / 3)).toNat) 1 t.1.x t.1.y t.1.z acc (k + 2)
    have hsc := extSegments_le_19 (f k) (hf k).1 (hf k).2
    have hih := ih (branchSegLoop f t.2.1 t.2.2.1 t.2.2.2
      (outwardBiasX t.1.x cX) ((f (k + 1) - 1/2) * (2/10))
      ((Int.floor ((30 + f k * 30) / 3)).toNat)
      ((Int.floor ((30 + f k * 30) / 3)).toNat) 1 t.1.x t.1.y t.1.z acc (k + 2)).1
      (branchSegLoop f t.2.1 t.2.2.1 t.2.2.2
      (outwardBiasX t.1.x cX) ((f (k + 1) - 1/2) * (2/10))
      ((Int.floor ((30 + f k * 30) / 3)).toNat)
      ((Int.floor ((30 + f k * 30) / 3)).toNat) 1 t.1.x t.1.y t.1.z acc (k + 2)).2
    simp only [List.length_cons] at hih hs ⊢
    omega

/-- A random filter keeps at most its input. -/
theorem randFilter_len_le (f : ℕ → ℚ) (th : ℚ) :
    ∀ (l : List α) (k : ℕ), (randFilter f th l k).1.length ≤ l.length := by
  intro l
  induction l with
  | nil => intro k; simp [randFilter]
  | cons x xs ih =>
    intro k
    rw [randFilter]
    split
    · exact Nat.succ_le_succ (ih (k + 1))
    · exact le_trans (ih (k + 1)) (Nat.le_succ _)

/-- Stable insertion grows the list by one. -/
theorem insertSorted_length (lt : α → α → Bool) (x : α) :
    ∀ l : List α, (insertSorted lt x l).length = l.length + 1 := by
  intro l
  induction l with
  | nil => rfl
  | cons y ys ih =>
    rw [insertSorted]
    split
    · rfl
    · simp [ih]

/-- The stable sort preserves length. -/
theorem sortList_length (lt : α → α → Bool) (l : List α) :
    (sortList lt l).length = l.length := by
  suffices h : ∀ (l acc : List α),
      (l.foldl (fun acc x => insertSorted lt x acc) acc).length =
        acc.length + l.length by
    simpa using h l []
  intro l
  induction l with
  | nil => intro acc; simp
  | cons x xs ih =>
    intro acc
    rw [List.foldl_cons, ih, insertSorted_length]
    simp only [List.length_cons]
    omega

/-- Branch extension emits at most 19 particles per input seed. -/
theorem extendBranches_len (sqrtF : ℚ → ℚ) (f : ℕ → ℚ)
    (hf : ∀ n, 0 ≤ f n ∧ f n < 1) (positions : List Pos3) (k : ℕ) :
    (extendBranches sqrtF f positions k).1.length ≤ positions.length * 19 := by
  rw [extendBranches]
  split
  · simp
  · simp only
    refine le_trans (tipsLoop_len f hf _ _ [] _) ?_
    simp only [List.length_nil, Nat.zero_add]
    refine Nat.mul_le_mul_right 19 ?_
    refine le_trans (randFilter_len_le f (2/10) _ k) ?_
    refine le_trans (List.length_filterMap_le _ _) ?_
    refine le_trans
      (le_trans (le_of_eq (List.length_take _ _)) (min_le_right _ _)) ?_
    rw [sortList_length, List.length_map]
    exact List.length_filter_le _ _

/-- C4: for any input seed set and any random stream (draws in `[0, 1)`),
root extension emits at most 100000 particles (in fact at most
`50 * 464 = 23200`); a `createRootBranch` call at source depth 2 or more
returns its array unchanged, so the recursion never runs past depth 2; and
branch extension - whose model contains no recursion at all - emits at most
19 particles per input seed. -/
theorem bounded_extension (sqrtF : ℚ → ℚ) (f : ℕ → ℚ)
    (positions : List Pos3) (k : ℕ) (startPos : Pos3) (arr : List Pos3)
    (depth : ℕ) (th bx bz : ℚ) (k2 : ℕ)
    (hf : ∀ n, 0 ≤ f n ∧ f n < 1) (hdepth : 2 ≤ depth) :
    (extendRoots sqrtF f positions k).1.length ≤ 100000 ∧
    createRootBranch f startPos arr depth th bx bz k2 = (arr, k2) ∧
    (extendBranches sqrtF f positions k).1.length ≤ positions.length * 19 :=
  ⟨extendRoots_len sqrtF f hf positions k,
   createRootBranch_depth2 f startPos arr depth th bx bz k2 hdepth,
   extendBranches_len sqrtF f hf positions k⟩

/-- Witness for C4 at a concrete seed set, stream and depth-2 call. -/
theorem bounded_extension_witness :
    (extendRoots sqrtStubZero randHalf cexSeeds 0).1.length ≤ 100000 ∧
    createRootBranch randHalf ⟨0, 0, 0⟩ [] 2 1 0 0 0 = ([], 0) ∧
    (extendBranches sqrtStubZero randHalf cexSeeds 0).1.length ≤
      cexSeeds.length * 19 :=
  bounded_extension sqrtStubZero randHalf cexSeeds 0 ⟨0, 0, 0⟩ [] 2 1 0 0 0
    (fun n => ⟨by norm_num [randHalf], by norm_num [randHalf]⟩) (le_refl 2)
